import Mathlib

/-!
Verification development for the `ghp` board state engine.

The definitions below are a shallow embedding of the Go sources:
  * `internal/domain/types.go` — the domain value types;
  * the `store` package — the in-memory board store, grouping engine,
    field-selection heuristic and option validation;
  * the `tui` package — the pagination handlers, the optimistic-move
    error handler and pre-filled-flag handling in the screen state machine.

Modeling conventions:
  * Go maps are modeled as insertion-ordered association lists with unique
    keys; `map[k] = v` is `ainsert` (replace in place, else append).  Go map
    iteration order is unspecified; the list order is a deterministic
    refinement of it, and every statement proved about bucket membership,
    counts and lookups is insensitive to that order.
  * Go slices copied by `copy`/`make` are values here; pointer sharing
    (`[]*domain.Card`) is modeled explicitly by a heap of numbered cells
    where a claim is about aliasing.
  * Go `error` results become `Except StoreErr` / `Option String`.
-/

namespace Ghp

/-- Association-list lookup: the model of reading a Go map (`v, ok := m[k]`). -/
def alookup {κ α : Type} [DecidableEq κ] (m : List (κ × α)) (k : κ) : Option α :=
  match m with
  | [] => none
  | (k', v) :: rest => if k' = k then some v else alookup rest k

/-- Association-list insert-or-replace: the model of a Go map assignment
(`m[k] = v`). An existing binding is replaced in place, a new one appended. -/
def ainsert {κ α : Type} [DecidableEq κ] (m : List (κ × α)) (k : κ) (v : α) : List (κ × α) :=
  match m with
  | [] => [(k, v)]
  | (k', v') :: rest => if k' = k then (k, v) :: rest else (k', v') :: ainsert rest k v

/-- Domain type `domain.Project` (types.go). -/
structure Project where
  id : String
  number : Int
  title : String
  owner : String
deriving Repr, DecidableEq

/-- Domain type `domain.Option` (types.go); renamed to avoid clashing with
the `Option` of Lean. -/
structure SelectOption where
  id : String
  name : String
  color : String
  order : Int
deriving Repr, DecidableEq

/-- Domain type `domain.FieldDef` (types.go). -/
structure FieldDef where
  id : String
  name : String
  type : String
  options : List SelectOption
  order : Int
deriving Repr, DecidableEq

/-- Domain type `domain.Card` (types.go) with all thirteen fields. -/
structure Card where
  itemID : String
  contentType : String
  title : String
  url : String
  repo : String
  number : Int
  groupOptionID : String
  assignees : List String
  body : String
  state : String
  labels : List String
  author : String
  createdAt : String
deriving Repr, DecidableEq

/-- Constant `domain.FieldTypeSingleSelect`. -/
def FieldTypeSingleSelect : String := "SINGLE_SELECT"

/-- Constant `domain.FieldTypeText`. -/
def FieldTypeText : String := "TEXT"

/-- Constant `store.NoStatusKey`, the sentinel column key for cards without a
grouping value. -/
def NoStatusKey : String := "_no_status_"

/-- Store-level error values (`ErrNoProject`, `ErrNoGroupField`,
`ErrCardNotFound`, `ErrInvalidOption` and the ad-hoc
"no rollback state available" error of `RollbackMove`). -/
inductive StoreErr where
  | noProject
  | noGroupField
  | cardNotFound
  | invalidOption
  | noRollbackState
deriving Repr, DecidableEq

/-- The `store.Store` struct. `cards` maps ItemID to Card, `columns` maps a
column key (an option ID or `NoStatusKey`) to the item IDs in that bucket. -/
structure Store where
  project : Option Project
  groupField : Option FieldDef
  viewerLogin : String
  cards : List (String × Card)
  columns : List (String × List String)
  cursor : String
  hasNextPage : Bool
  rollbackCard : Option Card
deriving Repr, DecidableEq

/-- The column key a card is bucketed under by `rebuildColumns`:
its `GroupOptionID`, or `NoStatusKey` when that is empty. -/
def bucketKey (c : Card) : String :=
  if c.groupOptionID = "" then NoStatusKey else c.groupOptionID

/-- One step of `rebuildColumns`: `s.columns[key] = append(s.columns[key], itemID)`. -/
def appendToBucket (cols : List (String × List String)) (k id : String) :
    List (String × List String) :=
  match cols with
  | [] => [(k, [id])]
  | (k', ids) :: rest =>
    if k' = k then (k, ids ++ [id]) :: rest else (k', ids) :: appendToBucket rest k id

/-- The `rebuildColumns` method of `store.Store`: rebuild the column map from
scratch, bucketing every card by `bucketKey`. It is written on the card map
alone because the Go method reads only `s.cards`. -/
def rebuildColumns (cards : List (String × Card)) : List (String × List String) :=
  cards.foldl (fun cols kc => appendToBucket cols (bucketKey kc.2) kc.1) []

/-- The `store.New` constructor. -/
def Store.New : Store :=
  { project := none, groupField := none, viewerLogin := ""
    cards := [], columns := [], cursor := "", hasNextPage := false
    rollbackCard := none }

/-- The `SetProject` method. -/
def Store.SetProject (s : Store) (p : Project) : Store :=
  { s with project := some p }

/-- The `SetGroupField` method: install the field and rebuild the columns. -/
def Store.SetGroupField (s : Store) (f : FieldDef) : Store :=
  { s with groupField := some f, columns := rebuildColumns s.cards }

/-- Card-map part of `UpsertCards`: `s.cards[card.ItemID] = card` for each
card of the batch, in batch order. -/
def upsertList (m : List (String × Card)) (batch : List Card) : List (String × Card) :=
  batch.foldl (fun m c => ainsert m c.itemID c) m

/-- The `UpsertCards` method: insert or overwrite each card of the batch by
identity, then rebuild the columns once for the whole batch. -/
def Store.UpsertCards (s : Store) (batch : List Card) : Store :=
  { s with cards := upsertList s.cards batch
           columns := rebuildColumns (upsertList s.cards batch) }

/-- The `GetCard` method. -/
def Store.GetCard (s : Store) (itemID : String) : Except StoreErr Card :=
  match alookup s.cards itemID with
  | some c => .ok c
  | none => .error .cardNotFound

/-- The `GetAllCards` method: every stored card. The Go method returns a fresh
slice of shared `*Card` pointers; the aliasing side is modeled separately by
`RefStore.RefGetAllCards`. -/
def Store.GetAllCards (s : Store) : List Card :=
  s.cards.map (fun kc => kc.2)

/-- The `GetColumns` method: fails with `NoGroupField` when no grouping field
is set, otherwise returns the column map (the Go method deep-copies it; the
copy of immutable data is the data itself in this value model). -/
def Store.GetColumns (s : Store) : Except StoreErr (List (String × List String)) :=
  match s.groupField with
  | none => .error .noGroupField
  | some _ => .ok s.columns

/-- The `GetColumnCardIDs` method: the IDs of one column, or the empty list
for an absent key. -/
def Store.GetColumnCardIDs (s : Store) (optionID : String) : List String :=
  match alookup s.columns optionID with
  | some ids => ids
  | none => []

/-- The rollback snapshot literal built by `MoveCard`. The Go composite
literal names only the first seven `Card` fields, so the remaining six are
zero-valued. -/
def moveSnapshot (c : Card) : Card :=
  { itemID := c.itemID, contentType := c.contentType, title := c.title
    url := c.url, repo := c.repo, number := c.number
    groupOptionID := c.groupOptionID
    assignees := [], body := "", state := "", labels := [], author := ""
    createdAt := "" }

/-- The `MoveCard` method. Go mutates the receiver and returns an error, so
the model returns the new receiver state together with the optional error:
`CardNotFound` for an absent identity (receiver untouched); otherwise save
the snapshot, set the grouping value of the card and rebuild columns. -/
def Store.MoveCard (s : Store) (itemID newOptionID : String) : Store × Option StoreErr :=
  match alookup s.cards itemID with
  | none => (s, some .cardNotFound)
  | some card =>
    let cards := ainsert s.cards itemID { card with groupOptionID := newOptionID }
    ({ s with rollbackCard := some (moveSnapshot card)
              cards := cards, columns := rebuildColumns cards }, none)

/-- The `RollbackMove` method: fails when no snapshot is held (receiver
untouched), otherwise puts the snapshot back into the card map, rebuilds
columns and clears the slot. -/
def Store.RollbackMove (s : Store) : Store × Option StoreErr :=
  match s.rollbackCard with
  | none => (s, some .noRollbackState)
  | some rc =>
    let cards := ainsert s.cards rc.itemID rc
    ({ s with cards := cards, columns := rebuildColumns cards, rollbackCard := none }, none)

/-- The `SetPagination` method. -/
def Store.SetPagination (s : Store) (cursor : String) (hasNextPage : Bool) : Store :=
  { s with cursor := cursor, hasNextPage := hasNextPage }

/-- The `Clear` method: empty cards, columns, pagination and the rollback
slot, keeping project and grouping field. -/
def Store.Clear (s : Store) : Store :=
  { s with cards := [], columns := [], cursor := "", hasNextPage := false
           rollbackCard := none }

/-- The `Reset` method: `Clear` plus dropping project and grouping field. -/
def Store.Reset (s : Store) : Store :=
  Store.Clear { s with project := none, groupField := none }

/-- ASCII lower-casing of one character. -/
def charToLower (c : Char) : Char :=
  if c.toNat ≥ 65 && c.toNat ≤ 90 then Char.ofNat (c.toNat + 32) else c

/-- The model of `strings.EqualFold` on the ASCII names compared by the
heuristic (exact for ASCII arguments such as "Status"). -/
def equalFold (a b : String) : Bool :=
  a.data.map charToLower == b.data.map charToLower

/-- Result of `SelectGroupField`: the Go function returns
(selected, candidates, err) with exactly one of the three populated. -/
inductive SelectResult where
  | noSelectable
  | selected (f : FieldDef)
  | candidates (fs : List FieldDef)
deriving Repr, DecidableEq

/-- The `SelectGroupField` heuristic: filter to single-select fields; error
when none; first field named "Status" (case-insensitively) wins; else a
unique single-select field wins; else all single-select fields are returned
as candidates. -/
def SelectGroupField (fields : List FieldDef) : SelectResult :=
  match fields.filter (fun f => f.type == FieldTypeSingleSelect) with
  | [] => .noSelectable
  | f :: rest =>
    match (f :: rest).find? (fun g => equalFold g.name "Status") with
    | some g => .selected g
    | none =>
      match rest with
      | [] => .selected f
      | _ => .candidates (f :: rest)

/-- Body of `SelectGroupField` once the single-select sublist is known to be
`f0 :: rest`; named so proofs can rewrite by the filter equation. -/
def selectFromSS (f0 : FieldDef) (rest : List FieldDef) : SelectResult :=
  match (f0 :: rest).find? (fun g => equalFold g.name "Status") with
  | some g => .selected g
  | none =>
    match rest with
    | [] => .selected f0
    | _ => .candidates (f0 :: rest)

/-- The `ValidateOption` method: `NoGroupField` without an active field, ok
for the empty string, ok for an option ID of the active field, else
`InvalidOption`. -/
def Store.ValidateOption (s : Store) (optionID : String) : Except StoreErr Unit :=
  match s.groupField with
  | none => .error .noGroupField
  | some gf =>
    if optionID = "" then .ok ()
    else if gf.options.any (fun o => o.id == optionID) then .ok ()
    else .error .invalidOption

/-- Specification of the contents of one column: the IDs of the cards whose bucket
key is `k`, in card-map order. -/
def bucketIDs (cards : List (String × Card)) (k : String) : List String :=
  (cards.filter (fun kc => bucketKey kc.2 == k)).map (fun kc => kc.1)

/-- Fold step used by `rebuildColumns`, named for the proofs below. -/
def rebuildStep (cols : List (String × List String)) (kc : String × Card) :
    List (String × List String) :=
  appendToBucket cols (bucketKey kc.2) kc.1

/-- Well-formedness of a store: the column index is exactly the rebuild of the
card map, card-map keys are unique, and every card sits under its own
`ItemID` key. Every Go `Store` produced by the operations of the package satisfies
this (`reachable_wf`). -/
structure WF (s : Store) : Prop where
  columns_eq : s.columns = rebuildColumns s.cards
  keys_nodup : (s.cards.map Prod.fst).Nodup
  keys_match : ∀ kc ∈ s.cards, kc.2.itemID = kc.1

/-- Store states reachable from `store.New()` by the mutating operations
named in the data-model invariant: `SetGroupField`, `UpsertCards`,
`MoveCard`, `RollbackMove`, `Clear` and `Reset`. -/
inductive Reachable : Store → Prop where
  | new : Reachable Store.New
  | setGroupField {s : Store} (f : FieldDef) :
      Reachable s → Reachable (s.SetGroupField f)
  | upsertCards {s : Store} (batch : List Card) :
      Reachable s → Reachable (s.UpsertCards batch)
  | moveCard {s : Store} (id v : String) :
      Reachable s → Reachable (s.MoveCard id v).1
  | rollbackMove {s : Store} :
      Reachable s → Reachable s.RollbackMove.1
  | clear {s : Store} : Reachable s → Reachable s.Clear
  | reset {s : Store} : Reachable s → Reachable s.Reset

/-- Payload of the `pageLoadedMsg` message delivered by `loadNextPage`
(board.go): a batch of cards, the next cursor, the more-pages flag, and the
optional fetch error. -/
structure PageMsg where
  cards : List Card
  nextCursor : String
  hasMore : Bool
  err : Option String
deriving Repr, DecidableEq

/-- The slice of `BoardModel` state that the pagination and move-error
handlers touch: the store plus the `loadingMore`, `nextCursor` and
`errorToast` fields. -/
structure BoardState where
  store : Store
  loadingMore : Bool
  nextCursor : String
  errorToast : String
deriving Repr, DecidableEq

/-- The `pageLoadedMsg` branch of `BoardModel.Update`: on error, stop loading
and set the toast; otherwise upsert the page into the store and, exactly when
`hasMore` is true and the next cursor non-empty, request the next page (the
returned cursor). -/
def handlePageLoaded (b : BoardState) (msg : PageMsg) : BoardState × Option String :=
  match msg.err with
  | some e => ({ b with loadingMore := false, errorToast := "Load failed: " ++ e }, none)
  | none =>
    let b' := { b with store := b.store.UpsertCards msg.cards }
    if msg.hasMore && msg.nextCursor != "" then
      ({ b' with loadingMore := true, nextCursor := msg.nextCursor }, some msg.nextCursor)
    else
      ({ b' with loadingMore := false, nextCursor := "" }, none)

/-- Driver of the background pagination path: deliver response `k`, follow
the requested next page while fuel lasts. `net k` is the response to the
k-th page request; fuel bounds the number of event-loop steps, and the
theorems show the loop stops strictly inside any sufficient fuel. -/
def runBg (net : Nat → PageMsg) : Nat → Nat → BoardState → BoardState
  | 0, _, b => b
  | fuel + 1, k, b =>
    match handlePageLoaded b (net k) with
    | (b', none) => b'
    | (b', some _) => runBg net fuel (k + 1) b'

/-- The collection loop of `loadAllItems` (board.go): accumulate the cards of
each page; abort on a fetch error; stop when `hasMore` is false or the next
cursor is empty. `none` means the fuel ran out with the loop still going. -/
def loadAllGo (net : Nat → PageMsg) : Nat → Nat → List Card → Option (Except String (List Card))
  | 0, _, _ => none
  | fuel + 1, k, acc =>
    let p := net k
    match p.err with
    | some e => some (.error e)
    | none =>
      if p.hasMore && p.nextCursor != "" then loadAllGo net fuel (k + 1) (acc ++ p.cards)
      else some (.ok (acc ++ p.cards))

/-- The `loadAllItems` command (board.go): clear the store, loop through all
pages, then one bulk upsert and `SetPagination("", false)`. On a fetch error
the store stays cleared and the error is reported. -/
def LoadAllItems (net : Nat → PageMsg) (fuel : Nat) (s : Store) :
    Option (Store × Option String) :=
  match loadAllGo net fuel 0 [] with
  | none => none
  | some (.error e) => some (s.Clear, some e)
  | some (.ok cs) => some (((s.Clear).UpsertCards cs).SetPagination "" false, none)

/-- Concatenation of the card batches of responses `k`, `k+1`, ..., `k+n`. -/
def pagesFrom (net : Nat → PageMsg) (k : Nat) : Nat → List Card
  | 0 => (net k).cards
  | n + 1 => (net k).cards ++ pagesFrom net (k + 1) n

/-- The `moveErrorMsg` branch of `BoardModel.Update`: invoke the rollback of the store (the returned error is discarded, as in the Go code) and set the
"Move failed" toast carrying the cause. -/
def handleMoveError (b : BoardState) (e : String) : BoardState :=
  { b with store := b.store.RollbackMove.1
           errorToast := "Move failed: " ++ e }

/-- The screens of `AppModel` (app.go). -/
inductive AppScreen where
  | loading
  | owner
  | projectPicker
  | fieldPicker
  | board
  | detail
deriving Repr, DecidableEq

/-- Commands issued by the `AppModel.Update` branches modeled here. -/
inductive AppCmd where
  | none
  | loadFields
  | showBoard
  | projectPickerInit (projects : List Project)
  | fieldPickerInit (fields : List FieldDef)
deriving Repr, DecidableEq

/-- The slice of `AppModel` state that the `projectsLoadedMsg` and
`fieldsLoadedMsg` handlers touch. -/
structure AppState where
  projectFlag : Int
  groupFieldFlag : String
  ownerLogin : String
  err : Option String
  currentScreen : AppScreen
  store : Store
  fields : List FieldDef
  groupField : Option FieldDef
  project : Option Project
deriving Repr, DecidableEq

/-- The `AppModel.View` method renders the terminal error display exactly
when `err` is non-nil. -/
def AppShowsError (a : AppState) : Bool :=
  a.err.isSome

/-- The `projectsLoadedMsg` branch of `AppModel.Update`: with a positive
project-number flag, install the first matching project and load its fields,
or set `err` when none matches; without the flag, open the project picker. -/
def handleProjectsLoaded (a : AppState) (projects : List Project) : AppState × AppCmd :=
  if a.projectFlag > 0 then
    match projects.find? (fun p => p.number == a.projectFlag) with
    | some p => ({ a with project := some p, store := a.store.SetProject p }, .loadFields)
    | none =>
      ({ a with err := some ("project #" ++ toString a.projectFlag ++
          " not found for owner " ++ a.ownerLogin) }, .none)
  else
    ({ a with currentScreen := .projectPicker }, .projectPickerInit projects)

/-- Shared tail of the `fieldsLoadedMsg` branch after the heuristic
succeeded: a non-empty grouping-field flag is resolved by exact name match
(install it and show the board, or set `err`); otherwise an auto-selected
field is installed, else the field picker opens on the candidates. -/
def afterHeuristic (a : AppState) (fields : List FieldDef)
    (selected : Option FieldDef) (candidates : List FieldDef) : AppState × AppCmd :=
  if a.groupFieldFlag != "" then
    match fields.find? (fun f => f.name == a.groupFieldFlag) with
    | some f => ({ a with groupField := some f, store := a.store.SetGroupField f }, .showBoard)
    | none =>
      ({ a with err := some ("field " ++ a.groupFieldFlag ++ " not found in project") }, .none)
  else
    match selected with
    | some f => ({ a with groupField := some f, store := a.store.SetGroupField f }, .showBoard)
    | none => ({ a with currentScreen := .fieldPicker }, .fieldPickerInit candidates)

/-- The `fieldsLoadedMsg` branch of `AppModel.Update`: record the fields, run
`SelectGroupField`; its error is terminal (set `err`) before the flag is even
consulted; otherwise continue with `afterHeuristic` exactly as the Go code
does with (selected, candidates). -/
def handleFieldsLoaded (a : AppState) (fields : List FieldDef) : AppState × AppCmd :=
  match SelectGroupField fields with
  | .noSelectable =>
    ({ a with fields := fields, err := some "no SINGLE_SELECT fields found in project" }, .none)
  | .selected f => afterHeuristic { a with fields := fields } fields (some f) []
  | .candidates fs => afterHeuristic { a with fields := fields } fields none fs

/-- Heap of mutable objects for the aliasing analysis of the collection
accessors: Go `*domain.Card` pointers and `[]string` slice headers become
numbered cells. `nextAddr` is the allocator frontier. -/
structure RHeap where
  nextAddr : Nat
  cardCells : List (Nat × Card)
  sliceCells : List (Nat × List String)
deriving Repr, DecidableEq

/-- Read a shared card record through its pointer. -/
def RHeap.readCard (h : RHeap) (a : Nat) : Option Card :=
  alookup h.cardCells a

/-- Mutate a shared card record through a pointer (what a caller holding a
`*domain.Card` can do). -/
def RHeap.writeCard (h : RHeap) (a : Nat) (c : Card) : RHeap :=
  { h with cardCells := ainsert h.cardCells a c }

/-- Read a `[]string` object. -/
def RHeap.readSlice (h : RHeap) (a : Nat) : Option (List String) :=
  alookup h.sliceCells a

/-- Mutate a `[]string` object in place (what a caller holding the slice can
do). -/
def RHeap.writeSlice (h : RHeap) (a : Nat) (ids : List String) : RHeap :=
  { h with sliceCells := ainsert h.sliceCells a ids }

/-- Pointer-level view of the collections of the store: `cards` maps an ItemID to
the address of its shared `*domain.Card` record, `columns` maps a column key
to the address of the backing `[]string`. -/
structure RefStore where
  cards : List (String × Nat)
  columns : List (String × Nat)
deriving Repr, DecidableEq

/-- Model of `GetAllCards` at the pointer level: the Go method builds a fresh slice
but its elements are the stored `*domain.Card` pointers themselves. -/
def RefStore.RefGetAllCards (s : RefStore) : List Nat :=
  s.cards.map (fun kv => kv.2)

/-- Reading one card by identity (what `GetCard` exposes, dereferenced). -/
def RefStore.readCardByID (s : RefStore) (h : RHeap) (id : String) : Option Card :=
  match alookup s.cards id with
  | some a => h.readCard a
  | none => none

/-- Reading the IDs of one column from the backing slice owned by the store. -/
def RefStore.readColumnIDs (s : RefStore) (h : RHeap) (k : String) : Option (List String) :=
  match alookup s.columns k with
  | some a => h.readSlice a
  | none => none

/-- The copy loop of `GetColumns` at the pointer level: for every column,
allocate a fresh `[]string`, copy the IDs into it, and return the map from
keys to the fresh addresses. -/
def refGetColumnsGo (h : RHeap) : List (String × Nat) → RHeap × List (String × Nat)
  | [] => (h, [])
  | (k, a) :: rest =>
    let ids := (h.readSlice a).getD []
    let fresh := h.nextAddr
    let h' : RHeap := { nextAddr := fresh + 1
                        cardCells := h.cardCells
                        sliceCells := ainsert h.sliceCells fresh ids }
    let res := refGetColumnsGo h' rest
    (res.1, (k, fresh) :: res.2)

/-- Model of `GetColumns` at the pointer level. -/
def RefStore.RefGetColumns (s : RefStore) (h : RHeap) : RHeap × List (String × Nat) :=
  refGetColumnsGo h s.columns

/-- Model of `GetColumnCardIDs` at the pointer level: copy the IDs (empty for
an absent key) into one freshly allocated slice and return its address. -/
def RefStore.RefGetColumnCardIDs (s : RefStore) (h : RHeap) (k : String) : RHeap × Nat :=
  let ids := (s.readColumnIDs h k).getD []
  ({ nextAddr := h.nextAddr + 1
     cardCells := h.cardCells
     sliceCells := ainsert h.sliceCells h.nextAddr ids }, h.nextAddr)

/-- Test fixture: the Status field (mirrors `createTestStatusField`). -/
def statusField : FieldDef :=
  { id := "field_status", name := "Status", type := FieldTypeSingleSelect
    options := [{ id := "opt_todo", name := "Todo", color := "", order := 0 },
                { id := "opt_inprogress", name := "In Progress", color := "", order := 1 },
                { id := "opt_done", name := "Done", color := "", order := 2 }]
    order := 0 }

/-- Test fixture: the Priority field (mirrors `createTestPriorityField`). -/
def priorityField : FieldDef :=
  { id := "field_priority", name := "Priority", type := FieldTypeSingleSelect
    options := [{ id := "opt_high", name := "High", color := "", order := 0 },
                { id := "opt_low", name := "Low", color := "", order := 1 }]
    order := 0 }

/-- Test fixture: a Team single-select field. -/
def teamField : FieldDef :=
  { id := "field_team", name := "Team", type := FieldTypeSingleSelect
    options := [{ id := "opt_team1", name := "Team 1", color := "", order := 0 }]
    order := 0 }

/-- Test fixture: a text field. -/
def textField : FieldDef :=
  { id := "field_text", name := "Description", type := FieldTypeText
    options := [], order := 0 }

/-- Test fixture: a number field. -/
def numberField : FieldDef :=
  { id := "field_number", name := "Points", type := "NUMBER"
    options := [], order := 0 }

/-- Minimal card constructor used by fixtures: identity plus grouping value,
all other fields zero-valued. -/
def mkCard (id v : String) : Card :=
  { itemID := id, contentType := "Issue", title := "t", url := "", repo := ""
    number := 0, groupOptionID := v, assignees := [], body := "", state := ""
    labels := [], author := "", createdAt := "" }

/-- A card with every snapshot-omitted field populated. -/
def richCard : Card :=
  { itemID := "item_1", contentType := "Issue", title := "Fix bug"
    url := "https://github.com/test/repo/issues/1", repo := "test/repo"
    number := 1, groupOptionID := "opt_todo", assignees := ["alice"]
    body := "Body text", state := "OPEN", labels := ["bug"], author := "bob"
    createdAt := "2024-01-01T00:00:00Z" }

/-- Fixture for the two-page pagination scenario: the 60 cards of the first page,
with distinct item IDs c0..c59 and empty grouping values. -/
def c7Page0 : List Card :=
  (List.range 60).map (fun i => mkCard (String.append "c" (Nat.repr i)) "")

/-- Fixture: the 40 cards of the last page, item IDs c60..c99. -/
def c7Page1 : List Card :=
  (List.range 40).map (fun i => mkCard (String.append "c" (Nat.repr (60 + i))) "")

/-- Fixture network: page 0 carries 60 cards and more pages, page 1 is a
zero-card page with more pages, page 2 carries 40 cards and ends pagination
(`hasMore = false`, empty cursor). -/
def c7Net : Nat → PageMsg := fun k =>
  if k = 0 then { cards := c7Page0, nextCursor := "cursor1", hasMore := true, err := none }
  else if k = 1 then { cards := [], nextCursor := "cursor2", hasMore := true, err := none }
  else { cards := c7Page1, nextCursor := "", hasMore := false, err := none }

theorem rebuildColumns_eq_foldl (cards : List (String × Card)) :
    rebuildColumns cards = cards.foldl rebuildStep [] := rfl

theorem alookup_ainsert_self {κ α : Type} [DecidableEq κ]
    (m : List (κ × α)) (k : κ) (v : α) : alookup (ainsert m k v) k = some v := by
  induction m with
  | nil => simp [ainsert, alookup]
  | cons kv rest ih =>
    by_cases h : kv.1 = k <;> simp [ainsert, alookup, h, ih]

theorem alookup_ainsert_ne {κ α : Type} [DecidableEq κ]
    (m : List (κ × α)) (k k' : κ) (v : α) (h : k' ≠ k) :
    alookup (ainsert m k v) k' = alookup m k' := by
  have h' : k ≠ k' := Ne.symm h
  induction m with
  | nil => simp [ainsert, alookup, h']
  | cons kv rest ih =>
    by_cases hk : kv.1 = k
    · simp [ainsert, alookup, hk, h']
    · by_cases hk' : kv.1 = k' <;> simp [ainsert, alookup, hk, hk', h, ih]

theorem keys_ainsert {κ α : Type} [DecidableEq κ]
    (m : List (κ × α)) (k : κ) (v : α) :
    (ainsert m k v).map Prod.fst =
      if k ∈ m.map Prod.fst then m.map Prod.fst else m.map Prod.fst ++ [k] := by
  induction m with
  | nil => simp [ainsert]
  | cons kv rest ih =>
    by_cases h : kv.1 = k
    · simp [ainsert, h]
    · simp only [ainsert, if_neg h, List.map_cons, ih]
      by_cases hmem : k ∈ rest.map Prod.fst
      · simp [hmem, Ne.symm h]
      · simp [hmem, Ne.symm h]

theorem nodup_keys_ainsert {κ α : Type} [DecidableEq κ]
    (m : List (κ × α)) (k : κ) (v : α) (h : (m.map Prod.fst).Nodup) :
    ((ainsert m k v).map Prod.fst).Nodup := by
  rw [keys_ainsert]
  by_cases hmem : k ∈ m.map Prod.fst
  · simpa [hmem] using h
  · simp only [if_neg hmem]
    exact List.Nodup.append h (List.nodup_singleton k) (by simpa using hmem)

theorem mem_ainsert {κ α : Type} [DecidableEq κ]
    (m : List (κ × α)) (k : κ) (v : α) (kv : κ × α) (h : kv ∈ ainsert m k v) :
    kv = (k, v) ∨ kv ∈ m := by
  induction m with
  | nil => simpa [ainsert] using h
  | cons kv' rest ih =>
    by_cases hk : kv'.1 = k
    · simp only [ainsert, if_pos hk, List.mem_cons] at h
      rcases h with h | h
      · exact Or.inl h
      · exact Or.inr (List.mem_cons_of_mem _ h)
    · simp only [ainsert, if_neg hk, List.mem_cons] at h
      rcases h with h | h
      · exact Or.inr (by simp [h])
      · rcases ih h with h' | h'
        · exact Or.inl h'
        · exact Or.inr (List.mem_cons_of_mem _ h')

theorem alookup_mem {κ α : Type} [DecidableEq κ]
    (m : List (κ × α)) (k : κ) (v : α) (h : alookup m k = some v) : (k, v) ∈ m := by
  induction m with
  | nil => simp [alookup] at h
  | cons kv rest ih =>
    obtain ⟨k1, v1⟩ := kv
    by_cases hk : k1 = k
    · subst hk
      simp only [alookup, if_pos rfl] at h
      cases h
      exact List.mem_cons_self _ _
    · simp only [alookup, if_neg hk] at h
      exact List.mem_cons_of_mem _ (ih h)

theorem mem_alookup {κ α : Type} [DecidableEq κ]
    (m : List (κ × α)) (k : κ) (v : α) (hnd : (m.map Prod.fst).Nodup)
    (h : (k, v) ∈ m) : alookup m k = some v := by
  induction m with
  | nil => simp at h
  | cons kv rest ih =>
    rw [List.map_cons, List.nodup_cons] at hnd
    rcases List.mem_cons.mp h with h' | h'
    · simp [alookup, ← h']
    · have hk : kv.1 ≠ k := by
        intro he
        exact hnd.1 (he ▸ List.mem_map.mpr ⟨(k, v), h', rfl⟩)
      simp only [alookup, if_neg hk]
      exact ih hnd.2 h'

theorem alookup_isSome_of_mem_keys {κ α : Type} [DecidableEq κ]
    (m : List (κ × α)) (k : κ) (h : k ∈ m.map Prod.fst) :
    (alookup m k).isSome := by
  induction m with
  | nil => simp at h
  | cons kv rest ih =>
    by_cases hk : kv.1 = k
    · simp [alookup, hk]
    · simp only [List.map_cons, List.mem_cons] at h
      rcases h with h | h
      · exact absurd h.symm hk
      · simpa [alookup, hk] using ih h

theorem alookup_appendToBucket_self
    (cols : List (String × List String)) (k id : String) :
    alookup (appendToBucket cols k id) k =
      some ((alookup cols k).getD [] ++ [id]) := by
  induction cols with
  | nil => simp [appendToBucket, alookup]
  | cons kv rest ih =>
    by_cases h : kv.1 = k <;> simp [appendToBucket, alookup, h, ih]

theorem alookup_appendToBucket_ne
    (cols : List (String × List String)) (k k' id : String) (h : k' ≠ k) :
    alookup (appendToBucket cols k id) k' = alookup cols k' := by
  have h' : k ≠ k' := Ne.symm h
  induction cols with
  | nil => simp [appendToBucket, alookup, h']
  | cons kv rest ih =>
    by_cases hk : kv.1 = k
    · simp [appendToBucket, alookup, hk, h']
    · by_cases hk' : kv.1 = k' <;> simp [appendToBucket, alookup, hk, hk', h, ih]

theorem keys_appendToBucket
    (cols : List (String × List String)) (k id : String) :
    (appendToBucket cols k id).map Prod.fst =
      if k ∈ cols.map Prod.fst then cols.map Prod.fst else cols.map Prod.fst ++ [k] := by
  induction cols with
  | nil => simp [appendToBucket]
  | cons kv rest ih =>
    by_cases h : kv.1 = k
    · simp [appendToBucket, h]
    · simp only [appendToBucket, if_neg h, List.map_cons, ih]
      by_cases hmem : k ∈ rest.map Prod.fst
      · simp [hmem, Ne.symm h]
      · simp [hmem, Ne.symm h]

theorem nodup_keys_appendToBucket
    (cols : List (String × List String)) (k id : String)
    (h : (cols.map Prod.fst).Nodup) :
    ((appendToBucket cols k id).map Prod.fst).Nodup := by
  rw [keys_appendToBucket]
  by_cases hmem : k ∈ cols.map Prod.fst
  · simpa [hmem] using h
  · simp only [if_neg hmem]
    exact List.Nodup.append h (List.nodup_singleton k) (by simpa using hmem)

theorem alookup_foldl_rebuildStep (cards : List (String × Card)) :
    ∀ (acc : List (String × List String)) (k : String),
      alookup (cards.foldl rebuildStep acc) k =
        if bucketIDs cards k = [] then alookup acc k
        else some ((alookup acc k).getD [] ++ bucketIDs cards k) := by
  induction cards with
  | nil => intro acc k; simp [bucketIDs]
  | cons kc rest ih =>
    intro acc k
    by_cases hk : bucketKey kc.2 = k
    · have hfilter : bucketIDs (kc :: rest) k = kc.1 :: bucketIDs rest k := by
        simp [bucketIDs, List.filter_cons, hk]
      have hstep : rebuildStep acc kc = appendToBucket acc k kc.1 := by
        simp [rebuildStep, hk]
      rw [List.foldl_cons, ih, hstep, hfilter]
      by_cases hrest : bucketIDs rest k = []
      · simp [hrest, alookup_appendToBucket_self]
      · simp [hrest, alookup_appendToBucket_self]
    · have hfilter : bucketIDs (kc :: rest) k = bucketIDs rest k := by
        simp [bucketIDs, List.filter_cons, hk]
      have hstep : alookup (rebuildStep acc kc) k = alookup acc k :=
        alookup_appendToBucket_ne acc (bucketKey kc.2) k kc.1 (fun h => hk h.symm)
      rw [List.foldl_cons, ih, hfilter, hstep]

theorem alookup_rebuildColumns (cards : List (String × Card)) (k : String) :
    alookup (rebuildColumns cards) k =
      if bucketIDs cards k = [] then none else some (bucketIDs cards k) := by
  rw [rebuildColumns_eq_foldl, alookup_foldl_rebuildStep]
  by_cases h : bucketIDs cards k = [] <;> simp [h, alookup]

theorem nodup_keys_foldl_rebuildStep (cards : List (String × Card)) :
    ∀ (acc : List (String × List String)),
      (acc.map Prod.fst).Nodup → ((cards.foldl rebuildStep acc).map Prod.fst).Nodup := by
  induction cards with
  | nil => intro acc h; simpa using h
  | cons kc rest ih =>
    intro acc h
    exact ih _ (nodup_keys_appendToBucket acc (bucketKey kc.2) kc.1 h)

theorem nodup_keys_rebuildColumns (cards : List (String × Card)) :
    ((rebuildColumns cards).map Prod.fst).Nodup := by
  rw [rebuildColumns_eq_foldl]
  exact nodup_keys_foldl_rebuildStep cards [] (by simp)

theorem mem_bucketIDs (cards : List (String × Card)) (k id : String) :
    id ∈ bucketIDs cards k ↔ ∃ c, (id, c) ∈ cards ∧ bucketKey c = k := by
  simp only [bucketIDs, List.mem_map, List.mem_filter]
  constructor
  · rintro ⟨⟨i, c⟩, ⟨hmem, hkey⟩, rfl⟩
    exact ⟨c, hmem, by simpa using hkey⟩
  · rintro ⟨c, hmem, hkey⟩
    exact ⟨(id, c), ⟨hmem, by simpa using hkey⟩, rfl⟩

theorem nodup_bucketIDs (cards : List (String × Card)) (k : String)
    (h : (cards.map Prod.fst).Nodup) : (bucketIDs cards k).Nodup := by
  have hsub : (bucketIDs cards k).Sublist (cards.map Prod.fst) :=
    List.Sublist.map Prod.fst (List.filter_sublist cards)
  exact List.Nodup.sublist hsub h

theorem nodup_keys_upsertList (batch : List Card) :
    ∀ m : List (String × Card), (m.map Prod.fst).Nodup →
      ((upsertList m batch).map Prod.fst).Nodup := by
  induction batch with
  | nil => intro m h; simpa [upsertList] using h
  | cons c rest ih =>
    intro m h
    exact ih (ainsert m c.itemID c) (nodup_keys_ainsert m c.itemID c h)

theorem keys_match_upsertList (batch : List Card) :
    ∀ m : List (String × Card), (∀ kc ∈ m, kc.2.itemID = kc.1) →
      ∀ kc ∈ upsertList m batch, kc.2.itemID = kc.1 := by
  induction batch with
  | nil => intro m h; simpa [upsertList] using h
  | cons c rest ih =>
    intro m h
    refine ih (ainsert m c.itemID c) ?_
    intro kc hkc
    rcases mem_ainsert m c.itemID c kc hkc with h' | h'
    · rw [h']
    · exact h kc h'

theorem upsertList_cons (m : List (String × Card)) (c : Card) (batch : List Card) :
    upsertList m (c :: batch) = upsertList (ainsert m c.itemID c) batch := rfl

theorem upsertList_append (m : List (String × Card)) (a b : List Card) :
    upsertList m (a ++ b) = upsertList (upsertList m a) b := by
  simp [upsertList, List.foldl_append]

theorem wf_new : WF Store.New :=
  ⟨rfl, by simp [Store.New], by simp [Store.New]⟩

theorem wf_setGroupField {s : Store} (f : FieldDef) (h : WF s) : WF (s.SetGroupField f) :=
  ⟨rfl, h.keys_nodup, h.keys_match⟩

theorem wf_upsertCards {s : Store} (batch : List Card) (h : WF s) : WF (s.UpsertCards batch) :=
  ⟨rfl, nodup_keys_upsertList batch _ h.keys_nodup,
   keys_match_upsertList batch _ h.keys_match⟩

theorem wf_moveCard {s : Store} (id v : String) (h : WF s) : WF (s.MoveCard id v).1 := by
  unfold Store.MoveCard
  cases hc : alookup s.cards id with
  | none => simpa using h
  | some card =>
    simp only
    refine ⟨rfl, nodup_keys_ainsert _ _ _ h.keys_nodup, ?_⟩
    intro kc hkc
    rcases mem_ainsert _ _ _ kc hkc with h' | h'
    · have hid : card.itemID = id := h.keys_match (id, card) (alookup_mem _ _ _ hc)
      rw [h']
      exact hid
    · exact h.keys_match kc h'

theorem wf_rollbackMove {s : Store} (h : WF s) : WF s.RollbackMove.1 := by
  unfold Store.RollbackMove
  cases hrc : s.rollbackCard with
  | none => simpa using h
  | some rc =>
    simp only
    refine ⟨rfl, nodup_keys_ainsert _ _ _ h.keys_nodup, ?_⟩
    intro kc hkc
    rcases mem_ainsert _ _ _ kc hkc with h' | h'
    · rw [h']
    · exact h.keys_match kc h'

theorem wf_clear {s : Store} : WF s.Clear :=
  ⟨rfl, by simp [Store.Clear], by simp [Store.Clear]⟩

theorem wf_reset {s : Store} : WF s.Reset :=
  ⟨rfl, by simp [Store.Reset, Store.Clear], by simp [Store.Reset, Store.Clear]⟩

/-- Every reachable store is well-formed; in particular the column index never
drifts from the deterministic rebuild of the card map. -/
theorem reachable_wf {s : Store} (h : Reachable s) : WF s := by
  induction h with
  | new => exact wf_new
  | setGroupField f _ ih => exact wf_setGroupField f ih
  | upsertCards batch _ ih => exact wf_upsertCards batch ih
  | moveCard id v _ ih => exact wf_moveCard id v ih
  | rollbackMove _ ih => exact wf_rollbackMove ih
  | clear _ _ => exact wf_clear
  | reset _ _ => exact wf_reset

/-- Partition property of a well-formed store: the identity of each stored card is
in exactly one bucket of the column index, namely the bucket keyed by the
card field `bucketKey`; it occurs once there, and membership in any bucket forces
the key of that bucket. -/
theorem wf_partition (s : Store) (hwf : WF s) (id : String) (c : Card)
    (hc : alookup s.cards id = some c) :
    (∃ ids, alookup s.columns (bucketKey c) = some ids ∧ ids.count id = 1) ∧
    (∀ k ids, alookup s.columns k = some ids → (id ∈ ids ↔ k = bucketKey c)) ∧
    s.columns.countP (fun kv => kv.2.contains id) = 1 := by
  have hmem_bucket : id ∈ bucketIDs s.cards (bucketKey c) :=
    (mem_bucketIDs s.cards (bucketKey c) id).mpr ⟨c, alookup_mem _ _ _ hc, rfl⟩
  have hne : bucketIDs s.cards (bucketKey c) ≠ [] := by
    intro h0
    rw [h0] at hmem_bucket
    exact absurd hmem_bucket (List.not_mem_nil id)
  have hlook : alookup s.columns (bucketKey c) = some (bucketIDs s.cards (bucketKey c)) := by
    rw [hwf.columns_eq, alookup_rebuildColumns, if_neg hne]
  have hnodup := nodup_bucketIDs s.cards (bucketKey c) hwf.keys_nodup
  have hmem_iff : ∀ k ids, alookup s.columns k = some ids → (id ∈ ids ↔ k = bucketKey c) := by
    intro k ids hk
    rw [hwf.columns_eq, alookup_rebuildColumns] at hk
    by_cases h0 : bucketIDs s.cards k = []
    · rw [if_pos h0] at hk; cases hk
    · rw [if_neg h0] at hk
      cases hk
      rw [mem_bucketIDs]
      constructor
      · rintro ⟨c', hmem', hkey'⟩
        have : alookup s.cards id = some c' := mem_alookup _ _ _ hwf.keys_nodup hmem'
        rw [hc] at this
        cases this
        exact hkey'.symm
      · rintro rfl
        exact ⟨c, alookup_mem _ _ _ hc, rfl⟩
  refine ⟨⟨bucketIDs s.cards (bucketKey c), hlook,
           List.count_eq_one_of_mem hnodup hmem_bucket⟩, hmem_iff, ?_⟩
  have hkeys_nodup : (s.columns.map Prod.fst).Nodup := by
    rw [hwf.columns_eq]; exact nodup_keys_rebuildColumns s.cards
  have hcongr : s.columns.countP (fun kv => kv.2.contains id) =
      s.columns.countP (fun kv => kv.1 == bucketKey c) := by
    refine List.countP_congr ?_
    intro kv hkv
    have hlk : alookup s.columns kv.1 = some kv.2 := by
      obtain ⟨k1, v1⟩ := kv
      exact mem_alookup _ _ _ hkeys_nodup hkv
    have := hmem_iff kv.1 kv.2 hlk
    simp only [List.contains, List.elem_iff, beq_iff_eq]
    exact this
  rw [hcongr]
  have hmap : s.columns.countP (fun kv => kv.1 == bucketKey c) =
      (s.columns.map Prod.fst).countP (fun k => k == bucketKey c) := by
    rw [List.countP_map]
    rfl
  have hkmem : bucketKey c ∈ s.columns.map Prod.fst :=
    List.mem_map.mpr ⟨(bucketKey c, bucketIDs s.cards (bucketKey c)),
      alookup_mem _ _ _ hlook, rfl⟩
  rw [hmap]
  have : (s.columns.map Prod.fst).count (bucketKey c) = 1 :=
    List.count_eq_one_of_mem hkeys_nodup hkmem
  simpa [List.count] using this

theorem alookup_upsertList_notin (batch : List Card) :
    ∀ (m : List (String × Card)) (k : String), (∀ c ∈ batch, c.itemID ≠ k) →
      alookup (upsertList m batch) k = alookup m k := by
  induction batch with
  | nil => intro m k _; rfl
  | cons c rest ih =>
    intro m k h
    rw [upsertList_cons, ih _ k (fun c' hc' => h c' (List.mem_cons_of_mem _ hc'))]
    exact alookup_ainsert_ne m c.itemID k c (Ne.symm (h c (List.mem_cons_self _ _)))

theorem alookup_upsertList_mem (batch : List Card) :
    ∀ (m : List (String × Card)) (c : Card), (batch.map Card.itemID).Nodup →
      c ∈ batch → alookup (upsertList m batch) c.itemID = some c := by
  induction batch with
  | nil => intro m c _ h; simp at h
  | cons c0 rest ih =>
    intro m c hnd hmem
    rw [List.map_cons, List.nodup_cons] at hnd
    rcases List.mem_cons.mp hmem with h' | h'
    · subst h'
      rw [upsertList_cons, alookup_upsertList_notin rest _ c.itemID ?_,
          alookup_ainsert_self]
      intro c' hc' he
      exact hnd.1 (he ▸ List.mem_map.mpr ⟨c', hc', rfl⟩)
    · rw [upsertList_cons]
      exact ih _ c hnd.2 h'

theorem length_ainsert_notin {κ α : Type} [DecidableEq κ]
    (m : List (κ × α)) (k : κ) (v : α) (h : k ∉ m.map Prod.fst) :
    (ainsert m k v).length = m.length + 1 := by
  induction m with
  | nil => rfl
  | cons kv rest ih =>
    rw [List.map_cons, List.mem_cons] at h
    push_neg at h
    have hne : kv.1 ≠ k := Ne.symm h.1
    simp only [ainsert, if_neg hne, List.length_cons]
    rw [ih h.2]

theorem length_upsertList (batch : List Card) :
    ∀ m : List (String × Card), (∀ c ∈ batch, c.itemID ∉ m.map Prod.fst) →
      (batch.map Card.itemID).Nodup →
      (upsertList m batch).length = m.length + batch.length := by
  induction batch with
  | nil => intro m _ _; simp [upsertList]
  | cons c rest ih =>
    intro m hfresh hnd
    rw [List.map_cons, List.nodup_cons] at hnd
    have hcm : c.itemID ∉ m.map Prod.fst := hfresh c (List.mem_cons_self _ _)
    have hkeys : (ainsert m c.itemID c).map Prod.fst = m.map Prod.fst ++ [c.itemID] := by
      rw [keys_ainsert, if_neg hcm]
    rw [upsertList_cons, ih (ainsert m c.itemID c) ?_ hnd.2,
        length_ainsert_notin m c.itemID c hcm, List.length_cons]
    · omega
    · intro c' hc'
      rw [hkeys]
      simp only [List.mem_append, List.mem_singleton]
      push_neg
      refine ⟨hfresh c' (List.mem_cons_of_mem _ hc'), ?_⟩
      intro he
      exact hnd.1 (he ▸ List.mem_map.mpr ⟨c', hc', rfl⟩)

theorem UpsertCards_append (s : Store) (a b : List Card) :
    (s.UpsertCards a).UpsertCards b = s.UpsertCards (a ++ b) := by
  simp [Store.UpsertCards, upsertList_append]

theorem handlePageLoaded_cont (b : BoardState) (p : PageMsg)
    (he : p.err = none) (hm : p.hasMore = true) (hc : p.nextCursor ≠ "") :
    handlePageLoaded b p =
      ({ b with store := b.store.UpsertCards p.cards
                loadingMore := true, nextCursor := p.nextCursor }, some p.nextCursor) := by
  unfold handlePageLoaded
  rw [he]
  have hcond : (p.hasMore && p.nextCursor != "") = true := by
    simp [hm, hc]
  simp [hcond]

theorem handlePageLoaded_stop (b : BoardState) (p : PageMsg)
    (he : p.err = none) (hstop : p.hasMore = false ∨ p.nextCursor = "") :
    handlePageLoaded b p =
      ({ b with store := b.store.UpsertCards p.cards
                loadingMore := false, nextCursor := "" }, none) := by
  unfold handlePageLoaded
  rw [he]
  have hcond : (p.hasMore && p.nextCursor != "") = false := by
    rcases hstop with h | h <;> simp [h]
  simp [hcond]

theorem runBg_spec (net : Nat → PageMsg) :
    ∀ (n k fuel : Nat) (b : BoardState),
      (∀ j, j < n → ((net (k + j)).err = none ∧ (net (k + j)).hasMore = true ∧
        (net (k + j)).nextCursor ≠ "")) →
      (net (k + n)).err = none →
      ((net (k + n)).hasMore = false ∨ (net (k + n)).nextCursor = "") →
      n < fuel →
      runBg net fuel k b =
        { b with store := b.store.UpsertCards (pagesFrom net k n)
                 loadingMore := false, nextCursor := "" } := by
  intro n
  induction n with
  | zero =>
    intro k fuel b _ herr hstop hfuel
    match fuel, hfuel with
    | fuel + 1, _ =>
      rw [Nat.add_zero] at herr hstop
      simp only [runBg, handlePageLoaded_stop b (net k) herr hstop]
      rfl
  | succ n ih =>
    intro k fuel b hcont herr hstop hfuel
    match fuel, hfuel with
    | fuel + 1, hfuel =>
      obtain ⟨he0, hm0, hc0⟩ := by
        have := hcont 0 (Nat.succ_pos n)
        rwa [Nat.add_zero] at this
      simp only [runBg, handlePageLoaded_cont b (net k) he0 hm0 hc0]
      have hrec := ih (k + 1) fuel
        { b with store := b.store.UpsertCards (net k).cards
                 loadingMore := true, nextCursor := (net k).nextCursor }
        (fun j hj => by
          have := hcont (j + 1) (Nat.succ_lt_succ hj)
          rwa [show k + (j + 1) = k + 1 + j by omega] at this)
        (by rwa [show k + 1 + n = k + (n + 1) by omega])
        (by rwa [show k + 1 + n = k + (n + 1) by omega])
        (Nat.lt_of_succ_lt_succ hfuel)
      rw [hrec]
      simp only [pagesFrom]
      rw [UpsertCards_append]

theorem loadAllGo_spec (net : Nat → PageMsg) :
    ∀ (n k fuel : Nat) (acc : List Card),
      (∀ j, j < n → ((net (k + j)).err = none ∧ (net (k + j)).hasMore = true ∧
        (net (k + j)).nextCursor ≠ "")) →
      (net (k + n)).err = none →
      ((net (k + n)).hasMore = false ∨ (net (k + n)).nextCursor = "") →
      n < fuel →
      loadAllGo net fuel k acc = some (.ok (acc ++ pagesFrom net k n)) := by
  intro n
  induction n with
  | zero =>
    intro k fuel acc _ herr hstop hfuel
    match fuel, hfuel with
    | fuel + 1, _ =>
      rw [Nat.add_zero] at herr hstop
      have hcond : ((net k).hasMore && (net k).nextCursor != "") = false := by
        rcases hstop with h | h <;> simp [h]
      simp only [loadAllGo, herr, hcond]
      rfl
  | succ n ih =>
    intro k fuel acc hcont herr hstop hfuel
    match fuel, hfuel with
    | fuel + 1, hfuel =>
      obtain ⟨he0, hm0, hc0⟩ := by
        have := hcont 0 (Nat.succ_pos n)
        rwa [Nat.add_zero] at this
      have hcond : ((net k).hasMore && (net k).nextCursor != "") = true := by
        simp [hm0, hc0]
      simp only [loadAllGo, he0, hcond, if_true]
      rw [ih (k + 1) fuel (acc ++ (net k).cards)
        (fun j hj => by
          have := hcont (j + 1) (Nat.succ_lt_succ hj)
          rwa [show k + (j + 1) = k + 1 + j by omega] at this)
        (by rwa [show k + 1 + n = k + (n + 1) by omega])
        (by rwa [show k + 1 + n = k + (n + 1) by omega])
        (Nat.lt_of_succ_lt_succ hfuel)]
      simp [pagesFrom, List.append_assoc]

theorem selectGroupField_eq_of_filter_cons (fields : List FieldDef)
    (f0 : FieldDef) (rest : List FieldDef)
    (hcase : fields.filter (fun f => f.type == FieldTypeSingleSelect) = f0 :: rest) :
    SelectGroupField fields = selectFromSS f0 rest := by
  unfold SelectGroupField selectFromSS
  conv_lhs => rw [hcase]

theorem find?_first {α : Type} (p : α → Bool) (f : α) (post : List α) :
    ∀ pre : List α, (∀ g ∈ pre, p g = false) → p f = true →
      (pre ++ f :: post).find? p = some f := by
  intro pre
  induction pre with
  | nil =>
    intro _ hf
    simp [List.find?, hf]
  | cons g rest ih =>
    intro hpre hf
    have hg : p g = false := hpre g (List.mem_cons_self _ _)
    simp only [List.cons_append, List.find?, hg]
    exact ih (fun g' hg' => hpre g' (List.mem_cons_of_mem _ hg')) hf

theorem handleProjectsLoaded_flag_found (a : AppState) (projects : List Project)
    (p : Project) (hflag : a.projectFlag > 0)
    (hfind : projects.find? (fun q => q.number == a.projectFlag) = some p) :
    handleProjectsLoaded a projects
      = ({ a with project := some p, store := a.store.SetProject p }, .loadFields) := by
  unfold handleProjectsLoaded
  rw [if_pos hflag, hfind]

theorem handleProjectsLoaded_flag_missing (a : AppState) (projects : List Project)
    (hflag : a.projectFlag > 0)
    (hfind : projects.find? (fun q => q.number == a.projectFlag) = none) :
    handleProjectsLoaded a projects
      = ({ a with err := some ("project #" ++ toString a.projectFlag ++
          " not found for owner " ++ a.ownerLogin) }, .none) := by
  unfold handleProjectsLoaded
  rw [if_pos hflag, hfind]

theorem handleFieldsLoaded_noSelectable (a : AppState) (fields : List FieldDef)
    (hsel : SelectGroupField fields = .noSelectable) :
    handleFieldsLoaded a fields
      = ({ a with fields := fields
                  err := some "no SINGLE_SELECT fields found in project" }, .none) := by
  unfold handleFieldsLoaded
  rw [hsel]

theorem handleFieldsLoaded_selected (a : AppState) (fields : List FieldDef)
    (f : FieldDef) (hsel : SelectGroupField fields = .selected f) :
    handleFieldsLoaded a fields
      = afterHeuristic { a with fields := fields } fields (some f) [] := by
  unfold handleFieldsLoaded
  rw [hsel]

theorem handleFieldsLoaded_candidates (a : AppState) (fields : List FieldDef)
    (fs : List FieldDef) (hsel : SelectGroupField fields = .candidates fs) :
    handleFieldsLoaded a fields
      = afterHeuristic { a with fields := fields } fields none fs := by
  unfold handleFieldsLoaded
  rw [hsel]

theorem afterHeuristic_flag_found (a : AppState) (fields : List FieldDef)
    (sel : Option FieldDef) (cand : List FieldDef) (f : FieldDef)
    (hbne : (a.groupFieldFlag != "") = true)
    (hfind : fields.find? (fun g => g.name == a.groupFieldFlag) = some f) :
    afterHeuristic a fields sel cand
      = ({ a with groupField := some f, store := a.store.SetGroupField f }, .showBoard) := by
  unfold afterHeuristic
  rw [if_pos hbne, hfind]

theorem afterHeuristic_flag_missing (a : AppState) (fields : List FieldDef)
    (sel : Option FieldDef) (cand : List FieldDef)
    (hbne : (a.groupFieldFlag != "") = true)
    (hfind : fields.find? (fun g => g.name == a.groupFieldFlag) = none) :
    afterHeuristic a fields sel cand
      = ({ a with err := some ("field " ++ a.groupFieldFlag ++
          " not found in project") }, .none) := by
  unfold afterHeuristic
  rw [if_pos hbne, hfind]

/-- C1 (amended): in every store reachable by `SetGroupField`, `UpsertCards`,
`MoveCard`, `RollbackMove`, `Clear` and `Reset` that has an active grouping
field, `GetColumns` succeeds and the derived mapping partitions the card
identities: every card identity in the card map occurs in exactly one bucket
(and exactly once there), that bucket is keyed by the grouping value of the card
whenever the value is non-empty — including values that are not options of
the active FieldDef — and by the sentinel `NoStatusKey` when the value is
empty. The original claim text "empty or unrecognized → sentinel" is refuted by
`C1_unrecognized_value_own_bucket`. -/
theorem C1_columns_partition (s : Store) (hs : Reachable s) (f : FieldDef)
    (hf : s.groupField = some f) (id : String) (c : Card)
    (hc : alookup s.cards id = some c) :
    s.GetColumns = .ok s.columns ∧
    s.columns.countP (fun kv => kv.2.contains id) = 1 ∧
    (∃ ids, alookup s.columns (bucketKey c) = some ids ∧ ids.count id = 1) ∧
    (∀ k ids, alookup s.columns k = some ids → (id ∈ ids ↔ k = bucketKey c)) ∧
    (c.groupOptionID = "" → bucketKey c = NoStatusKey) ∧
    (c.groupOptionID ≠ "" → bucketKey c = c.groupOptionID) := by
  have hwf := reachable_wf hs
  have hp := wf_partition s hwf id c hc
  refine ⟨by simp [Store.GetColumns, hf], hp.2.2, hp.1, hp.2.1, ?_, ?_⟩
  · intro h
    simp [bucketKey, h]
  · intro h
    simp [bucketKey, h]

/-- C1 counterexample: a card whose grouping value "bogus" is not an option
of the active Status field lands in a bucket keyed "bogus", not in the
sentinel bucket, so "the bucket is the sentinel key exactly when the value is
empty or unrecognized" fails on the unrecognized side. -/
theorem C1_unrecognized_value_own_bucket :
    statusField.options.all (fun o => o.id != "bogus") = true ∧
    ((Store.New.SetGroupField statusField).UpsertCards [mkCard "item_1" "bogus"]).GetColumns
      = .ok [("bogus", ["item_1"])] ∧
    alookup ((Store.New.SetGroupField statusField).UpsertCards
        [mkCard "item_1" "bogus"]).columns NoStatusKey = none := by
  exact ⟨by decide, rfl, by decide⟩

/-- C1 witness: the partition theorem applied to a concrete reachable store
holding a grouped card and an ungrouped card. -/
theorem C1_columns_partition_witness :
    ((Store.New.SetGroupField statusField).UpsertCards
        [mkCard "item_1" "opt_todo", mkCard "item_3" ""]).GetColumns
      = .ok ((Store.New.SetGroupField statusField).UpsertCards
        [mkCard "item_1" "opt_todo", mkCard "item_3" ""]).columns ∧
    ((Store.New.SetGroupField statusField).UpsertCards
        [mkCard "item_1" "opt_todo", mkCard "item_3" ""]).columns.countP
        (fun kv => kv.2.contains "item_3") = 1 := by
  have h := C1_columns_partition
    ((Store.New.SetGroupField statusField).UpsertCards
      [mkCard "item_1" "opt_todo", mkCard "item_3" ""])
    (Reachable.upsertCards _ (Reachable.setGroupField _ Reachable.new))
    statusField rfl "item_3" (mkCard "item_3" "") (by decide)
  exact ⟨h.1, h.2.1⟩

/-- C2 (code bug, evaluated): the snapshot literal of `MoveCard` copies only the
first seven `Card` fields, so moving `richCard` and rolling back stores a
card whose assignees, body, state, labels, author and creation timestamp are
zero values — not the complete pre-move state that the claim (and the "copy the
card" intent of the snapshot comment) requires. -/
theorem C2_rollback_loses_fields :
    ((((Store.New.SetGroupField statusField).UpsertCards [richCard]).MoveCard
        "item_1" "opt_done").2 = none) ∧
    (((((Store.New.SetGroupField statusField).UpsertCards [richCard]).MoveCard
        "item_1" "opt_done").1.RollbackMove).2 = none) ∧
    alookup (((((Store.New.SetGroupField statusField).UpsertCards [richCard]).MoveCard
        "item_1" "opt_done").1.RollbackMove).1.cards) "item_1"
      = some (moveSnapshot richCard) ∧
    (moveSnapshot richCard).groupOptionID = "opt_todo" ∧
    richCard.groupOptionID = "opt_todo" ∧
    (moveSnapshot richCard).assignees = [] ∧
    richCard.assignees = ["alice"] ∧
    (moveSnapshot richCard).body = "" ∧
    richCard.body = "Body text" ∧
    moveSnapshot richCard ≠ richCard := by
  decide

/-- C3: `RollbackMove` signals `NoRollbackState` exactly when no snapshot is
held; fresh stores, cleared stores, reset stores and stores after a
successful rollback hold none (so a second consecutive rollback fails); a
successful `MoveCard` overwrites any unconsumed snapshot with the pre-move
snapshot of the card it moves, so after two moves a single rollback restores
the pre-state of the most recent move (its snapshot, whose grouping value is the
pre-move one) only. -/
theorem C3_rollback_protocol (s : Store) (hwf : WF s) :
    (s.RollbackMove.2 = some StoreErr.noRollbackState ↔ s.rollbackCard = none) ∧
    (s.rollbackCard = none → s.RollbackMove = (s, some StoreErr.noRollbackState)) ∧
    Store.New.rollbackCard = none ∧
    s.Clear.rollbackCard = none ∧
    s.Reset.rollbackCard = none ∧
    (s.RollbackMove.2 = none →
      s.RollbackMove.1.rollbackCard = none ∧
      s.RollbackMove.1.RollbackMove.2 = some StoreErr.noRollbackState) ∧
    (∀ id v c, alookup s.cards id = some c →
      (s.MoveCard id v).2 = none ∧
      (s.MoveCard id v).1.rollbackCard = some (moveSnapshot c)) ∧
    (∀ id1 v1 id2 v2 c2,
      alookup (s.MoveCard id1 v1).1.cards id2 = some c2 →
      ((s.MoveCard id1 v1).1.MoveCard id2 v2).1.rollbackCard = some (moveSnapshot c2) ∧
      alookup (((s.MoveCard id1 v1).1.MoveCard id2 v2).1.RollbackMove).1.cards id2
        = some (moveSnapshot c2) ∧
      (moveSnapshot c2).groupOptionID = c2.groupOptionID) := by
  refine ⟨?_, ?_, rfl, rfl, rfl, ?_, ?_, ?_⟩
  · unfold Store.RollbackMove
    cases s.rollbackCard <;> simp
  · intro h
    unfold Store.RollbackMove
    rw [h]
  · intro h
    cases hrc : s.rollbackCard with
    | none =>
      have hfail : s.RollbackMove = (s, some StoreErr.noRollbackState) := by
        unfold Store.RollbackMove
        rw [hrc]
      rw [hfail] at h
      simp at h
    | some rc =>
      have hmove : s.RollbackMove =
          ({ s with cards := ainsert s.cards rc.itemID rc
                    columns := rebuildColumns (ainsert s.cards rc.itemID rc)
                    rollbackCard := none }, none) := by
        unfold Store.RollbackMove
        rw [hrc]
      rw [hmove]
      exact ⟨rfl, rfl⟩
  · intro id v c hc
    unfold Store.MoveCard
    rw [hc]
    exact ⟨rfl, rfl⟩
  · intro id1 v1 id2 v2 c2 hc2
    have hwf1 : WF (s.MoveCard id1 v1).1 := wf_moveCard id1 v1 hwf
    have hid : c2.itemID = id2 := hwf1.keys_match (id2, c2) (alookup_mem _ _ _ hc2)
    obtain ⟨s1, hs1⟩ : ∃ s1, (s.MoveCard id1 v1).1 = s1 := ⟨_, rfl⟩
    rw [hs1] at hc2 ⊢
    have h2 : s1.MoveCard id2 v2 =
        ({ s1 with rollbackCard := some (moveSnapshot c2)
                   cards := ainsert s1.cards id2 { c2 with groupOptionID := v2 }
                   columns := rebuildColumns (ainsert s1.cards id2
                     { c2 with groupOptionID := v2 }) }, none) := by
      unfold Store.MoveCard
      rw [hc2]
    rw [h2]
    refine ⟨rfl, ?_, rfl⟩
    unfold Store.RollbackMove
    simp only
    have hsnap : (moveSnapshot c2).itemID = id2 := hid
    rw [hsnap, alookup_ainsert_self]

/-- C3 witness: the protocol theorem applied at a concrete store — a fresh
rollback fails, two consecutive moves keep only the second snapshot, a single
rollback restores it, and a second rollback fails. -/
theorem C3_rollback_protocol_witness :
    ((Store.New.SetGroupField statusField).UpsertCards
        [mkCard "item_1" "opt_todo"]).RollbackMove
      = ((Store.New.SetGroupField statusField).UpsertCards
        [mkCard "item_1" "opt_todo"], some StoreErr.noRollbackState) ∧
    ((((Store.New.SetGroupField statusField).UpsertCards
        [mkCard "item_1" "opt_todo"]).MoveCard "item_1" "opt_done").1.MoveCard
        "item_1" "").1.rollbackCard = some (moveSnapshot (mkCard "item_1" "opt_done")) ∧
    alookup ((((((Store.New.SetGroupField statusField).UpsertCards
        [mkCard "item_1" "opt_todo"]).MoveCard "item_1" "opt_done").1.MoveCard
        "item_1" "").1.RollbackMove).1.cards) "item_1"
      = some (moveSnapshot (mkCard "item_1" "opt_done")) ∧
    ((((((Store.New.SetGroupField statusField).UpsertCards
        [mkCard "item_1" "opt_todo"]).MoveCard "item_1" "opt_done").1.MoveCard
        "item_1" "").1.RollbackMove).1.RollbackMove).2
      = some StoreErr.noRollbackState := by
  have hwf : WF ((Store.New.SetGroupField statusField).UpsertCards
      [mkCard "item_1" "opt_todo"]) := ⟨rfl, by decide, by decide⟩
  have h := C3_rollback_protocol
    ((Store.New.SetGroupField statusField).UpsertCards [mkCard "item_1" "opt_todo"]) hwf
  have h8 := h.2.2.2.2.2.2.2 "item_1" "opt_done" "item_1" ""
    (mkCard "item_1" "opt_done") (by decide)
  have hwf2 : WF ((((Store.New.SetGroupField statusField).UpsertCards
      [mkCard "item_1" "opt_todo"]).MoveCard "item_1" "opt_done").1.MoveCard
      "item_1" "").1 :=
    wf_moveCard "item_1" "" (wf_moveCard "item_1" "opt_done" hwf)
  have h6 := (C3_rollback_protocol _ hwf2).2.2.2.2.2.1 (by decide)
  exact ⟨h.2.1 rfl, h8.1, h8.2.1, h6.2⟩

/-- C10: `MoveCard` on an identity absent from the card map returns
`CardNotFound` and the receiver completely unchanged — the pair equality
covers the card map, column index, pagination state and, as spelled out by
the extra conjuncts, any previously saved rollback snapshot. -/
theorem C10_moveCard_missing_is_noop (s : Store) (id v : String)
    (h : alookup s.cards id = none) :
    s.MoveCard id v = (s, some StoreErr.cardNotFound) ∧
    (s.MoveCard id v).1.rollbackCard = s.rollbackCard ∧
    (s.MoveCard id v).1.cards = s.cards ∧
    (s.MoveCard id v).1.columns = s.columns ∧
    (s.MoveCard id v).1.cursor = s.cursor ∧
    (s.MoveCard id v).1.hasNextPage = s.hasNextPage := by
  have hmove : s.MoveCard id v = (s, some StoreErr.cardNotFound) := by
    unfold Store.MoveCard
    rw [h]
  refine ⟨hmove, ?_, ?_, ?_, ?_, ?_⟩ <;> rw [hmove]

/-- C10 witness: a failed move on a store holding an unconsumed snapshot
leaves the snapshot (and everything else) intact. -/
theorem C10_moveCard_missing_is_noop_witness :
    ((((Store.New.SetGroupField statusField).UpsertCards
        [mkCard "item_1" "opt_todo"]).MoveCard "item_1" "opt_done").1.MoveCard
        "missing" "opt_done")
      = ((((Store.New.SetGroupField statusField).UpsertCards
        [mkCard "item_1" "opt_todo"]).MoveCard "item_1" "opt_done").1,
        some StoreErr.cardNotFound) ∧
    (((Store.New.SetGroupField statusField).UpsertCards
        [mkCard "item_1" "opt_todo"]).MoveCard "item_1" "opt_done").1.rollbackCard
      = some (moveSnapshot (mkCard "item_1" "opt_todo")) := by
  have h := C10_moveCard_missing_is_noop
    ((((Store.New.SetGroupField statusField).UpsertCards
      [mkCard "item_1" "opt_todo"]).MoveCard "item_1" "opt_done").1)
    "missing" "opt_done" (by decide)
  exact ⟨h.1, by decide⟩

/-- C4: `SelectGroupField` behaves as the four ordered rules on the
single-select sublist `ss` (input order preserved by `filter`): empty `ss`
fails with no-selectable-fields; else the first field of `ss` whose name
equals "Status" case-insensitively is selected with no candidate list; else a
sole member of `ss` is selected; else the whole sublist is returned as
candidates with no selection. The four guards are mutually exclusive and
exhaustive, so exactly one rule fires per invocation, in this order. -/
theorem C4_selectGroupField_rules (fields : List FieldDef) :
    (fields.filter (fun f => f.type == FieldTypeSingleSelect) = [] →
      SelectGroupField fields = .noSelectable) ∧
    (∀ pre f post,
      fields.filter (fun f => f.type == FieldTypeSingleSelect) = pre ++ f :: post →
      (∀ g ∈ pre, equalFold g.name "Status" = false) →
      equalFold f.name "Status" = true →
      SelectGroupField fields = .selected f) ∧
    (∀ f, fields.filter (fun f => f.type == FieldTypeSingleSelect) = [f] →
      equalFold f.name "Status" = false →
      SelectGroupField fields = .selected f) ∧
    (∀ ss, fields.filter (fun f => f.type == FieldTypeSingleSelect) = ss →
      2 ≤ ss.length →
      (∀ g ∈ ss, equalFold g.name "Status" = false) →
      SelectGroupField fields = .candidates ss) := by
  refine ⟨?_, ?_, ?_, ?_⟩
  · intro h
    unfold SelectGroupField
    rw [h]
  · intro pre f post hss hpre hf
    cases pre with
    | nil =>
      rw [List.nil_append] at hss
      rw [selectGroupField_eq_of_filter_cons fields f post hss]
      simp [selectFromSS, List.find?, hf]
    | cons g pre' =>
      rw [List.cons_append] at hss
      rw [selectGroupField_eq_of_filter_cons fields g (pre' ++ f :: post) hss]
      have hfind : (g :: (pre' ++ f :: post)).find?
          (fun g => equalFold g.name "Status") = some f := by
        rw [← List.cons_append]
        exact find?_first (fun g => equalFold g.name "Status") f post (g :: pre') hpre hf
      unfold selectFromSS
      rw [hfind]
  · intro f hss hf
    rw [selectGroupField_eq_of_filter_cons fields f [] hss]
    simp [selectFromSS, List.find?, hf]
  · intro ss hss hlen hall
    have hfind : ss.find? (fun g => equalFold g.name "Status") = none :=
      List.find?_eq_none.mpr (fun g hg => by simp [hall g hg])
    cases ss with
    | nil => simp at hlen
    | cons f0 rest =>
      cases rest with
      | nil => simp at hlen
      | cons f1 rest' =>
        rw [selectGroupField_eq_of_filter_cons fields f0 (f1 :: rest') hss]
        unfold selectFromSS
        rw [hfind]

/-- C4 witness: the two worked examples of the spec — a Status field among
several single-selects wins with no candidates, and a lone single-select
field wins with no candidates. -/
theorem C4_selectGroupField_rules_witness :
    SelectGroupField [priorityField, statusField, teamField]
      = .selected statusField ∧
    SelectGroupField [textField, priorityField, numberField]
      = .selected priorityField := by
  have h1 := (C4_selectGroupField_rules [priorityField, statusField, teamField]).2.1
    [priorityField] statusField [teamField] (by decide) (by decide) (by decide)
  have h2 := (C4_selectGroupField_rules [textField, priorityField, numberField]).2.2.1
    priorityField (by decide) (by decide)
  exact ⟨h1, h2⟩

/-- C5: `ValidateOption` signals `NoGroupField` when no grouping field is
active; otherwise the empty string always validates; otherwise a non-empty
value validates exactly when it is the identity of one of the options of the active
field, and signals `InvalidOption` exactly otherwise. -/
theorem C5_validateOption (s : Store) (v : String) :
    (s.groupField = none → s.ValidateOption v = .error .noGroupField) ∧
    (∀ gf, s.groupField = some gf → v = "" → s.ValidateOption v = .ok ()) ∧
    (∀ gf, s.groupField = some gf → v ≠ "" →
      ((s.ValidateOption v = .ok ()) ↔ ∃ o ∈ gf.options, o.id = v) ∧
      ((s.ValidateOption v = .error .invalidOption) ↔ ¬∃ o ∈ gf.options, o.id = v)) := by
  refine ⟨?_, ?_, ?_⟩
  · intro h
    unfold Store.ValidateOption
    rw [h]
  · intro gf hgf hv
    unfold Store.ValidateOption
    rw [hgf]
    simp [hv]
  · intro gf hgf hv
    unfold Store.ValidateOption
    rw [hgf]
    simp only [if_neg hv]
    by_cases hany : gf.options.any (fun o => o.id == v)
    · rw [if_pos hany]
      simp only [List.any_eq_true, beq_iff_eq] at hany
      exact ⟨⟨fun _ => hany, fun _ => rfl⟩,
             ⟨fun h => Except.noConfusion h, fun h => absurd hany h⟩⟩
    · rw [if_neg hany]
      simp only [List.any_eq_true, beq_iff_eq] at hany
      exact ⟨⟨fun h => Except.noConfusion h, fun h => absurd h hany⟩,
             ⟨fun _ => hany, fun _ => rfl⟩⟩

/-- C5 witness: with the Status field active, the empty string and a real
option ID validate, an unknown ID is invalid, and without a field the check
fails with `NoGroupField`. -/
theorem C5_validateOption_witness :
    (Store.New.SetGroupField statusField).ValidateOption "" = .ok () ∧
    (Store.New.SetGroupField statusField).ValidateOption "opt_todo" = .ok () ∧
    (Store.New.SetGroupField statusField).ValidateOption "opt_nope"
      = .error .invalidOption ∧
    Store.New.ValidateOption "opt_todo" = .error .noGroupField := by
  have h := C5_validateOption (Store.New.SetGroupField statusField) ""
  have h1 := h.2.1 statusField rfl rfl
  have h2 := (C5_validateOption (Store.New.SetGroupField statusField) "opt_todo").2.2
    statusField rfl (by decide)
  have h3 := (C5_validateOption (Store.New.SetGroupField statusField) "opt_nope").2.2
    statusField rfl (by decide)
  have h4 := (C5_validateOption Store.New "opt_todo").1 rfl
  refine ⟨h1, ?_, ?_, h4⟩
  · exact h2.1.mpr ⟨{ id := "opt_todo", name := "Todo", color := "", order := 0 },
      by decide, rfl⟩
  · refine h3.2.mpr ?_
    decide

theorem refGetColumnsGo_out_ge :
    ∀ (entries : List (String × Nat)) (h : RHeap) (kv : String × Nat),
      kv ∈ (refGetColumnsGo h entries).2 → h.nextAddr ≤ kv.2 := by
  intro entries
  induction entries with
  | nil =>
    intro h kv hkv
    simp [refGetColumnsGo] at hkv
  | cons e rest ih =>
    intro h kv hkv
    obtain ⟨k, a⟩ := e
    simp only [refGetColumnsGo, List.mem_cons] at hkv
    rcases hkv with h' | h'
    · rw [h']
    · have := ih _ kv h'
      simp only at this
      omega

theorem refGetColumnsGo_readSlice_lt :
    ∀ (entries : List (String × Nat)) (h : RHeap) (a : Nat), a < h.nextAddr →
      (refGetColumnsGo h entries).1.readSlice a = h.readSlice a := by
  intro entries
  induction entries with
  | nil =>
    intro h a _
    rfl
  | cons e rest ih =>
    intro h a ha
    obtain ⟨k, a0⟩ := e
    simp only [refGetColumnsGo]
    rw [ih _ a (by simp only; omega)]
    simp only [RHeap.readSlice]
    exact alookup_ainsert_ne h.sliceCells h.nextAddr a _ (Nat.ne_of_lt ha)

/-- C6 (amended): at the pointer level, `GetColumns` and `GetColumnCardIDs`
return freshly allocated copies — writing through any returned slice leaves
every subsequent column read of the store unchanged, and the call itself
changes no store-visible read — while `GetAllCards` returns a fresh container
whose elements alias the card records owned by the store, so a caller mutation
through one of those pointers IS visible to subsequent store reads. The
original claim (all three accessors yield independent copies) is refuted by
`C6_getAllCards_aliasing`. -/
theorem C6_accessor_copy_semantics (s : RefStore) (h : RHeap)
    (hbound : ∀ kv ∈ s.columns, kv.2 < h.nextAddr) :
    (∀ kv ∈ (s.RefGetColumns h).2, ∀ l k,
      s.readColumnIDs (((s.RefGetColumns h).1).writeSlice kv.2 l) k
        = s.readColumnIDs ((s.RefGetColumns h).1) k) ∧
    (∀ k, s.readColumnIDs ((s.RefGetColumns h).1) k = s.readColumnIDs h k) ∧
    (∀ k l k2, s.readColumnIDs
        (((s.RefGetColumnCardIDs h k).1).writeSlice (s.RefGetColumnCardIDs h k).2 l) k2
      = s.readColumnIDs h k2) ∧
    (∀ id a c, alookup s.cards id = some a → a ∈ s.RefGetAllCards →
      s.readCardByID (h.writeCard a c) id = some c) := by
  have hread : ∀ (h' : RHeap) (a' : Nat) (l : List String) (k : String),
      (∀ kv ∈ s.columns, kv.2 ≠ a') →
      s.readColumnIDs (h'.writeSlice a' l) k = s.readColumnIDs h' k := by
    intro h' a' l k hne
    unfold RefStore.readColumnIDs
    cases hk : alookup s.columns k with
    | none => rfl
    | some a2 =>
      have ha2 : a2 ≠ a' := hne (k, a2) (alookup_mem _ _ _ hk)
      simp only [RHeap.writeSlice, RHeap.readSlice]
      exact alookup_ainsert_ne h'.sliceCells a' a2 l ha2
  refine ⟨?_, ?_, ?_, ?_⟩
  · intro kv hkv l k
    refine hread _ kv.2 l k ?_
    intro kv' hkv'
    have hlt := hbound kv' hkv'
    have hge := refGetColumnsGo_out_ge s.columns h kv hkv
    omega
  · intro k
    unfold RefStore.readColumnIDs
    cases hk : alookup s.columns k with
    | none => rfl
    | some a2 =>
      exact refGetColumnsGo_readSlice_lt s.columns h a2
        (hbound (k, a2) (alookup_mem _ _ _ hk))
  · intro k l k2
    have hstep1 : ∀ k2, s.readColumnIDs (s.RefGetColumnCardIDs h k).1 k2
        = s.readColumnIDs h k2 := by
      intro k2
      unfold RefStore.readColumnIDs
      cases hk : alookup s.columns k2 with
      | none => rfl
      | some a2 =>
        simp only [RefStore.RefGetColumnCardIDs, RHeap.readSlice]
        exact alookup_ainsert_ne h.sliceCells h.nextAddr a2 _
          (Nat.ne_of_lt (hbound (k2, a2) (alookup_mem _ _ _ hk)))
    rw [hread _ _ l k2 ?_, hstep1 k2]
    intro kv' hkv'
    have := hbound kv' hkv'
    simp only [RefStore.RefGetColumnCardIDs]
    omega
  · intro id a c hid _
    unfold RefStore.readCardByID
    rw [hid]
    simp only [RHeap.writeCard, RHeap.readCard]
    exact alookup_ainsert_self h.cardCells a c

/-- C6 counterexample: `GetAllCards` hands out the card pointer owned by the store;
writing the card record through that pointer changes what a subsequent
`GetCard` read returns, so the accessor does not return an independent copy. -/
theorem C6_getAllCards_aliasing :
    ({ cards := [("item_1", 0)], columns := [] } : RefStore).RefGetAllCards = [0] ∧
    ({ cards := [("item_1", 0)], columns := [] } : RefStore).readCardByID
      { nextAddr := 1, cardCells := [(0, richCard)], sliceCells := [] } "item_1"
      = some richCard ∧
    ({ cards := [("item_1", 0)], columns := [] } : RefStore).readCardByID
      (({ nextAddr := 1, cardCells := [(0, richCard)], sliceCells := [] } : RHeap).writeCard
        0 (mkCard "item_1" "corrupted")) "item_1"
      = some (mkCard "item_1" "corrupted") ∧
    mkCard "item_1" "corrupted" ≠ richCard := by
  decide

/-- C6 witness: the copy-semantics theorem applied to a concrete store with
one column slice and one card record. -/
theorem C6_accessor_copy_semantics_witness :
    ({ cards := [("item_1", 0)], columns := [("opt_todo", 1)] } : RefStore).readColumnIDs
        ((({ cards := [("item_1", 0)], columns := [("opt_todo", 1)] } : RefStore).RefGetColumnCardIDs
            { nextAddr := 2, cardCells := [(0, richCard)],
              sliceCells := [(1, ["item_1"])] } "opt_todo").1.writeSlice
          (({ cards := [("item_1", 0)], columns := [("opt_todo", 1)] } : RefStore).RefGetColumnCardIDs
            { nextAddr := 2, cardCells := [(0, richCard)],
              sliceCells := [(1, ["item_1"])] } "opt_todo").2 ["fake_id"]) "opt_todo"
      = ({ cards := [("item_1", 0)], columns := [("opt_todo", 1)] } : RefStore).readColumnIDs
          { nextAddr := 2, cardCells := [(0, richCard)], sliceCells := [(1, ["item_1"])] }
          "opt_todo" ∧
    ({ cards := [("item_1", 0)], columns := [("opt_todo", 1)] } : RefStore).readCardByID
      (({ nextAddr := 2, cardCells := [(0, richCard)],
          sliceCells := [(1, ["item_1"])] } : RHeap).writeCard 0 (mkCard "item_1" "x"))
      "item_1" = some (mkCard "item_1" "x") := by
  have h := C6_accessor_copy_semantics
    { cards := [("item_1", 0)], columns := [("opt_todo", 1)] }
    { nextAddr := 2, cardCells := [(0, richCard)], sliceCells := [(1, ["item_1"])] }
    (by decide)
  exact ⟨h.2.2.1 "opt_todo" ["fake_id"] "opt_todo",
         h.2.2.2 "item_1" 0 (mkCard "item_1" "x") (by decide) (by decide)⟩

/-- C7: both pagination paths request a further page only when the received
page has `hasMore` true and a non-empty cursor; for any response sequence
whose first stopping response (hasMore false or empty cursor, no fetch
error) is at index `k0`, the background path terminates there with every
page upserted and its pagination fields cleared, the reload-all path
terminates with one bulk upsert after `Clear` and `SetPagination("", false)`,
every delivered card with distinct item IDs is present in the final store,
and the card count equals the number delivered. Zero-card pages change
nothing and are handled by the same guards (the witness feeds one). -/
theorem C7_pagination_terminates (net : Nat → PageMsg) (k0 fuel : Nat)
    (b : BoardState) (s : Store)
    (hcont : ∀ j, j < k0 → ((net j).err = none ∧ (net j).hasMore = true ∧
      (net j).nextCursor ≠ ""))
    (herr : (net k0).err = none)
    (hstop : (net k0).hasMore = false ∨ (net k0).nextCursor = "")
    (hfuel : k0 < fuel)
    (hnodup : ((pagesFrom net 0 k0).map Card.itemID).Nodup) :
    (∀ (b' : BoardState) (msg : PageMsg) (c : String),
      (handlePageLoaded b' msg).2 = some c →
      msg.hasMore = true ∧ msg.nextCursor ≠ "" ∧ c = msg.nextCursor) ∧
    runBg net fuel 0 b
      = { b with store := b.store.UpsertCards (pagesFrom net 0 k0)
                 loadingMore := false, nextCursor := "" } ∧
    LoadAllItems net fuel s
      = some (((s.Clear).UpsertCards (pagesFrom net 0 k0)).SetPagination "" false, none) ∧
    (∀ c ∈ pagesFrom net 0 k0,
      alookup ((runBg net fuel 0 b).store.cards) c.itemID = some c ∧
      alookup (((s.Clear).UpsertCards (pagesFrom net 0 k0)).cards) c.itemID = some c) ∧
    ((s.Clear).UpsertCards (pagesFrom net 0 k0)).GetAllCards.length
      = (pagesFrom net 0 k0).length ∧
    (((s.Clear).UpsertCards (pagesFrom net 0 k0)).SetPagination "" false).cursor = "" ∧
    (((s.Clear).UpsertCards (pagesFrom net 0 k0)).SetPagination "" false).hasNextPage
      = false := by
  have hcont0 : ∀ j, j < k0 → ((net (0 + j)).err = none ∧ (net (0 + j)).hasMore = true ∧
      (net (0 + j)).nextCursor ≠ "") := by
    intro j hj
    rw [Nat.zero_add]
    exact hcont j hj
  have hrun : runBg net fuel 0 b
      = { b with store := b.store.UpsertCards (pagesFrom net 0 k0)
                 loadingMore := false, nextCursor := "" } :=
    runBg_spec net k0 0 fuel b hcont0 (by rwa [Nat.zero_add]) (by rwa [Nat.zero_add]) hfuel
  have hload : LoadAllItems net fuel s
      = some (((s.Clear).UpsertCards (pagesFrom net 0 k0)).SetPagination "" false, none) := by
    unfold LoadAllItems
    rw [loadAllGo_spec net k0 0 fuel [] hcont0 (by rwa [Nat.zero_add])
      (by rwa [Nat.zero_add]) hfuel]
    rw [List.nil_append]
  refine ⟨?_, hrun, hload, ?_, ?_, rfl, rfl⟩
  · intro b' msg c h
    unfold handlePageLoaded at h
    cases hmsg : msg.err with
    | some e => rw [hmsg] at h; simp at h
    | none =>
      rw [hmsg] at h
      by_cases hcond : (msg.hasMore && msg.nextCursor != "") = true
      · rw [if_pos hcond] at h
        simp only [Bool.and_eq_true, bne_iff_ne] at hcond
        simp only [Option.some.injEq] at h
        exact ⟨hcond.1, hcond.2, h.symm⟩
      · rw [if_neg hcond] at h
        simp at h
  · intro c hc
    constructor
    · rw [hrun]
      exact alookup_upsertList_mem (pagesFrom net 0 k0) b.store.cards c hnodup hc
    · exact alookup_upsertList_mem (pagesFrom net 0 k0) (s.Clear).cards c hnodup hc
  · show (((s.Clear).UpsertCards (pagesFrom net 0 k0)).cards.map (fun kc => kc.2)).length
      = (pagesFrom net 0 k0).length
    rw [List.length_map]
    show (upsertList (s.Clear).cards (pagesFrom net 0 k0)).length
      = (pagesFrom net 0 k0).length
    rw [length_upsertList (pagesFrom net 0 k0) (s.Clear).cards (by simp [Store.Clear]) hnodup]
    simp [Store.Clear]

/-- C7 witness: the 60-card, zero-card, 40-card scenario — pagination stops
at the third response, `GetAllCards` holds 100 entries, and the pagination
state shows no cursor and no more pages. -/
theorem C7_pagination_terminates_witness :
    runBg c7Net 3 0 { store := Store.New, loadingMore := false, nextCursor := ""
                      errorToast := "" }
      = { store := Store.New.UpsertCards (pagesFrom c7Net 0 2), loadingMore := false
          nextCursor := "", errorToast := "" } ∧
    LoadAllItems c7Net 3 Store.New
      = some (((Store.New.Clear).UpsertCards (pagesFrom c7Net 0 2)).SetPagination "" false,
          none) ∧
    ((Store.New.Clear).UpsertCards (pagesFrom c7Net 0 2)).GetAllCards.length = 100 ∧
    (c7Net 1).cards = [] ∧
    (((Store.New.Clear).UpsertCards (pagesFrom c7Net 0 2)).SetPagination "" false).cursor
      = "" ∧
    (((Store.New.Clear).UpsertCards (pagesFrom c7Net 0 2)).SetPagination
      "" false).hasNextPage = false := by
  have h := C7_pagination_terminates c7Net 2 3
    { store := Store.New, loadingMore := false, nextCursor := "", errorToast := "" }
    Store.New (by decide) (by decide) (by decide) (by decide) (by decide)
  refine ⟨h.2.1, h.2.2.1, ?_, by decide, h.2.2.2.2.2.1, h.2.2.2.2.2.2⟩
  rw [h.2.2.2.2.1]
  decide

/-- C8: delivering a `moveErrorMsg` after a successful optimistic `MoveCard`
makes the handler invoke the rollback of the store — the snapshot is consumed,
and the stored record of the moved card returns to the pre-move snapshot (in particular
its pre-move grouping value; the field coverage of the snapshot is the subject of
C2) with the column index rebuilt — and sets the user-visible toast
"Move failed: " followed by the underlying cause. -/
theorem C8_move_error_rollback (b : BoardState) (id v : String) (c : Card)
    (e : String) (hwf : WF b.store)
    (hc : alookup b.store.cards id = some c) :
    (b.store.MoveCard id v).2 = none ∧
    (handleMoveError { b with store := (b.store.MoveCard id v).1 } e).store.rollbackCard
      = none ∧
    alookup (handleMoveError { b with store := (b.store.MoveCard id v).1 } e).store.cards id
      = some (moveSnapshot c) ∧
    (moveSnapshot c).groupOptionID = c.groupOptionID ∧
    (handleMoveError { b with store := (b.store.MoveCard id v).1 } e).store.columns
      = rebuildColumns
        (handleMoveError { b with store := (b.store.MoveCard id v).1 } e).store.cards ∧
    (handleMoveError { b with store := (b.store.MoveCard id v).1 } e).errorToast
      = "Move failed: " ++ e := by
  have hid : c.itemID = id := hwf.keys_match (id, c) (alookup_mem _ _ _ hc)
  have hmv : b.store.MoveCard id v =
      ({ b.store with rollbackCard := some (moveSnapshot c)
                      cards := ainsert b.store.cards id { c with groupOptionID := v }
                      columns := rebuildColumns (ainsert b.store.cards id
                        { c with groupOptionID := v }) }, none) := by
    unfold Store.MoveCard
    rw [hc]
  rw [hmv]
  have hsnap : (moveSnapshot c).itemID = id := hid
  simp only [handleMoveError, Store.RollbackMove, moveSnapshot]
  refine ⟨trivial, trivial, ?_, trivial, trivial, trivial⟩
  rw [hid]
  exact alookup_ainsert_self _ id _

/-- C8 witness: a concrete failed remote commit — after the handler runs, the
grouping value of the card is back to "opt_todo" and the toast names the move
failure and its cause. -/
theorem C8_move_error_rollback_witness :
    alookup (handleMoveError
      { store := ((((Store.New.SetGroupField statusField).UpsertCards
          [mkCard "item_1" "opt_todo"])).MoveCard "item_1" "opt_done").1
        loadingMore := false, nextCursor := "", errorToast := "" }
      "GraphQL error: network unreachable").store.cards "item_1"
      = some (moveSnapshot (mkCard "item_1" "opt_todo")) ∧
    (moveSnapshot (mkCard "item_1" "opt_todo")).groupOptionID = "opt_todo" ∧
    (handleMoveError
      { store := ((((Store.New.SetGroupField statusField).UpsertCards
          [mkCard "item_1" "opt_todo"])).MoveCard "item_1" "opt_done").1
        loadingMore := false, nextCursor := "", errorToast := "" }
      "GraphQL error: network unreachable").errorToast
      = "Move failed: " ++ "GraphQL error: network unreachable" := by
  have h := C8_move_error_rollback
    { store := (Store.New.SetGroupField statusField).UpsertCards [mkCard "item_1" "opt_todo"]
      loadingMore := false, nextCursor := "", errorToast := "" }
    "item_1" "opt_done" (mkCard "item_1" "opt_todo") "GraphQL error: network unreachable"
    ⟨rfl, by decide, by decide⟩ (by decide)
  exact ⟨h.2.2.1, h.2.2.2.1, h.2.2.2.2.2⟩

/-- C9 (amended): with a positive project-number flag, a fetched project list
matching it installs the first matching project in the store and proceeds to
field loading (picker skipped), and a list matching nothing sets the terminal
error display with no picker and no store change; a non-empty grouping-field
flag that matches no fetched field name likewise ends in the error display;
a matching field name is installed and the board shown provided the project
has at least one single-select field — when it has none, the `NoSelectableFields` error of the heuristic wins even over a matching flag (this last case
refutes the original claim, see `C9_flag_match_but_no_selectable`). -/
theorem C9_prefill_flags (a : AppState) (projects : List Project)
    (fields : List FieldDef) :
    (a.projectFlag > 0 →
      projects.find? (fun p => p.number == a.projectFlag) = none →
      AppShowsError (handleProjectsLoaded a projects).1 = true ∧
      (handleProjectsLoaded a projects).2 = AppCmd.none ∧
      (handleProjectsLoaded a projects).1.currentScreen = a.currentScreen ∧
      (handleProjectsLoaded a projects).1.store = a.store) ∧
    (∀ p, a.projectFlag > 0 →
      projects.find? (fun q => q.number == a.projectFlag) = some p →
      (handleProjectsLoaded a projects).1.store.project = some p ∧
      (handleProjectsLoaded a projects).1.project = some p ∧
      (handleProjectsLoaded a projects).2 = AppCmd.loadFields) ∧
    (a.groupFieldFlag ≠ "" →
      fields.find? (fun f => f.name == a.groupFieldFlag) = none →
      AppShowsError (handleFieldsLoaded a fields).1 = true ∧
      (handleFieldsLoaded a fields).2 = AppCmd.none) ∧
    (∀ f, a.groupFieldFlag ≠ "" →
      fields.find? (fun g => g.name == a.groupFieldFlag) = some f →
      SelectGroupField fields ≠ .noSelectable →
      (handleFieldsLoaded a fields).1.store.groupField = some f ∧
      (handleFieldsLoaded a fields).1.groupField = some f ∧
      (handleFieldsLoaded a fields).2 = AppCmd.showBoard) ∧
    (SelectGroupField fields = .noSelectable →
      AppShowsError (handleFieldsLoaded a fields).1 = true ∧
      (handleFieldsLoaded a fields).2 = AppCmd.none ∧
      (handleFieldsLoaded a fields).1.store.groupField = a.store.groupField) := by
  refine ⟨?_, ?_, ?_, ?_, ?_⟩
  · intro hflag hfind
    rw [handleProjectsLoaded_flag_missing a projects hflag hfind]
    exact ⟨rfl, rfl, rfl, rfl⟩
  · intro p hflag hfind
    rw [handleProjectsLoaded_flag_found a projects p hflag hfind]
    exact ⟨rfl, rfl, rfl⟩
  · intro hflag hfind
    have hbne : (a.groupFieldFlag != "") = true := by
      simpa using hflag
    cases hsel : SelectGroupField fields with
    | noSelectable =>
      rw [handleFieldsLoaded_noSelectable a fields hsel]
      exact ⟨rfl, rfl⟩
    | selected f =>
      rw [handleFieldsLoaded_selected a fields f hsel,
          afterHeuristic_flag_missing { a with fields := fields } fields (some f) [] hbne hfind]
      exact ⟨rfl, rfl⟩
    | candidates fs =>
      rw [handleFieldsLoaded_candidates a fields fs hsel,
          afterHeuristic_flag_missing { a with fields := fields } fields none fs hbne hfind]
      exact ⟨rfl, rfl⟩
  · intro f hflag hfind hsel
    have hbne : (a.groupFieldFlag != "") = true := by
      simpa using hflag
    cases hsel' : SelectGroupField fields with
    | noSelectable => exact absurd hsel' hsel
    | selected g =>
      rw [handleFieldsLoaded_selected a fields g hsel',
          afterHeuristic_flag_found { a with fields := fields } fields (some g) [] f hbne hfind]
      exact ⟨rfl, rfl, rfl⟩
    | candidates fs =>
      rw [handleFieldsLoaded_candidates a fields fs hsel',
          afterHeuristic_flag_found { a with fields := fields } fields none fs f hbne hfind]
      exact ⟨rfl, rfl, rfl⟩
  · intro hsel
    rw [handleFieldsLoaded_noSelectable a fields hsel]
    exact ⟨rfl, rfl, rfl⟩

/-- C9 counterexample: the only field of the project is a text field named "Foo"
and the pre-filled field flag is "Foo" — the name matches a fetched field,
yet the machine sets the terminal error (the no-single-select error of the
heuristic fires first), installs nothing and never shows the board, refuting
"if the pre-filled value does match, the picker is skipped and the matched
entity is installed". -/
theorem C9_flag_match_but_no_selectable :
    (([{ id := "f_text", name := "Foo", type := FieldTypeText, options := [], order := 0 }]
        : List FieldDef).find? (fun f => f.name == "Foo")).isSome = true ∧
    AppShowsError (handleFieldsLoaded
      { projectFlag := 0, groupFieldFlag := "Foo", ownerLogin := "me", err := none
        currentScreen := .loading, store := Store.New, fields := [], groupField := none
        project := none }
      [{ id := "f_text", name := "Foo", type := FieldTypeText, options := [], order := 0 }]).1
      = true ∧
    (handleFieldsLoaded
      { projectFlag := 0, groupFieldFlag := "Foo", ownerLogin := "me", err := none
        currentScreen := .loading, store := Store.New, fields := [], groupField := none
        project := none }
      [{ id := "f_text", name := "Foo", type := FieldTypeText, options := [], order := 0 }]).1.store.groupField
      = none ∧
    (handleFieldsLoaded
      { projectFlag := 0, groupFieldFlag := "Foo", ownerLogin := "me", err := none
        currentScreen := .loading, store := Store.New, fields := [], groupField := none
        project := none }
      [{ id := "f_text", name := "Foo", type := FieldTypeText, options := [], order := 0 }]).2
      = AppCmd.none := by
  decide

/-- C9 witness: the amended flag behavior at concrete inputs — an unmatched
project number ends in the error display, a matched project number installs
the project, and a matched field name with a single-select field present
installs the field and shows the board. -/
theorem C9_prefill_flags_witness :
    AppShowsError (handleProjectsLoaded
      { projectFlag := 7, groupFieldFlag := "", ownerLogin := "me", err := none
        currentScreen := .loading, store := Store.New, fields := [], groupField := none
        project := none }
      [{ id := "p1", number := 1, title := "Board", owner := "me" }]).1 = true ∧
    (handleProjectsLoaded
      { projectFlag := 1, groupFieldFlag := "", ownerLogin := "me", err := none
        currentScreen := .loading, store := Store.New, fields := [], groupField := none
        project := none }
      [{ id := "p1", number := 1, title := "Board", owner := "me" }]).1.store.project
      = some { id := "p1", number := 1, title := "Board", owner := "me" } ∧
    (handleFieldsLoaded
      { projectFlag := 0, groupFieldFlag := "Priority", ownerLogin := "me", err := none
        currentScreen := .loading, store := Store.New, fields := [], groupField := none
        project := none }
      [statusField, priorityField]).1.store.groupField = some priorityField ∧
    (handleFieldsLoaded
      { projectFlag := 0, groupFieldFlag := "Priority", ownerLogin := "me", err := none
        currentScreen := .loading, store := Store.New, fields := [], groupField := none
        project := none }
      [statusField, priorityField]).2 = AppCmd.showBoard := by
  have h1 := (C9_prefill_flags
    { projectFlag := 7, groupFieldFlag := "", ownerLogin := "me", err := none
      currentScreen := .loading, store := Store.New, fields := [], groupField := none
      project := none }
    [{ id := "p1", number := 1, title := "Board", owner := "me" }] []).1
    (by decide) (by decide)
  have h2 := (C9_prefill_flags
    { projectFlag := 1, groupFieldFlag := "", ownerLogin := "me", err := none
      currentScreen := .loading, store := Store.New, fields := [], groupField := none
      project := none }
    [{ id := "p1", number := 1, title := "Board", owner := "me" }] []).2.1
    { id := "p1", number := 1, title := "Board", owner := "me" } (by decide) (by decide)
  have h3 := (C9_prefill_flags
    { projectFlag := 0, groupFieldFlag := "Priority", ownerLogin := "me", err := none
      currentScreen := .loading, store := Store.New, fields := [], groupField := none
      project := none }
    [] [statusField, priorityField]).2.2.2.1
    priorityField (by decide) (by decide) (by decide)
  exact ⟨h1.1, h2.1, h3.1, h3.2.2⟩

end Ghp
